import Mathlib

/-!
Verification of the log-parsing and event-correlation engine of
`tools/test-upload/parse_and_upload.py` (DragonOS repository).

The text of a log is modelled as a `List Char`; positions are `Nat` indices.
Each Python regular expression used by the parsers is embedded as a
deterministic matcher derived from the backtracking semantics of the
original pattern (the derivations are noted at each matcher), and
`re.finditer` is embedded as a left-to-right non-overlapping scan.
`float` on the captured `[\d.]+` strings and the subsequent multiplication
by 1000 are modelled bit-exactly in IEEE-754 binary64 arithmetic
(correctly rounded, ties to even, overflow to `inf`), realised with
integer arithmetic; `int(x)` is truncation, raising on `inf`.
-/

set_option maxRecDepth 10000
set_option exponentiation.threshold 1200

namespace ParseUpload

/-- Python `\s` on the ASCII range (also the character set of `str.strip`). -/
def pySpace (c : Char) : Bool :=
  c = ' ' || c = '\t' || c = '\n' || c = '\r' || c = '\x0b' || c = '\x0c'

/-- Python `\d` on the ASCII range. -/
def pyDigit (c : Char) : Bool := '0' ≤ c && c ≤ '9'

/-- The character class `[\d.]`. -/
def pyDigitDot (c : Char) : Bool := pyDigit c || c = '.'

/-- Literal prefix test (used for every literal fragment of a pattern). -/
def isPre (p s : List Char) : Bool := List.isPrefixOf p s

/-- Length of the leading run of characters satisfying `p`. -/
def cnt (p : Char → Bool) (l : List Char) : Nat := (l.takeWhile p).length

/-- The slice `content[a:b]` of Python (for `0 ≤ a`, `0 ≤ b`). -/
def extract (content : List Char) (a b : Nat) : List Char :=
  (content.drop a).take (b - a)

/-- Python `str.strip()` (ASCII whitespace). -/
def pyStrip (l : List Char) : List Char :=
  ((l.dropWhile pySpace).reverse.dropWhile pySpace).reverse

/-- Python `str.split('\n')`: always returns one more part than separators. -/
def splitNl : List Char → List (List Char)
  | [] => [[]]
  | c :: rest =>
    match splitNl rest with
    | [] => [[]]
    | p :: ps => if c = '\n' then [] :: p :: ps else (c :: p) :: ps

/-- Python `'\n'.join(...)`. -/
def joinNl : List (List Char) → List Char
  | [] => []
  | [l] => l
  | l :: rest => l ++ '\n' :: joinNl rest

/-- Numeric value of a digit string. -/
def natOfDigits (l : List Char) : Nat :=
  l.foldl (fun acc c => acc * 10 + (c.toNat - 48)) 0

/-- Whether `i` is at the start of a line (`^` under `re.MULTILINE`). -/
def lineStart (content : List Char) (i : Nat) : Bool :=
  i = 0 || content.getD (i - 1) ' ' = '\n'

/-- First index in the list for which `f` yields a value (backtracking order
of quantifier candidates, and the scan order of `re.search`). -/
def firstSome {α : Type} (f : Nat → Option α) : List Nat → Option α
  | [] => none
  | i :: is => match f i with
    | some a => some a
    | none => firstSome f is

/-- One step list of `re.finditer`: scan positions left to right, at a match
continue at its end (all embedded patterns match at least one character, so
`max e (i+1) = e`; the `max` mirrors CPython exactly). -/
def scanGo {α : Type} (f : List Char → Nat → Option (Nat × α)) (content : List Char) :
    Nat → Nat → List (Nat × Nat × α)
  | 0, _ => []
  | Nat.succ fuel, i =>
    match f content i with
    | some (e, a) => (i, e, a) :: scanGo f content fuel (Nat.max e (i + 1))
    | none => scanGo f content fuel (i + 1)

/-- `re.finditer(pattern, content)` for a matcher `f` that reports the match
end and its captures; yields `(start, end, captures)` in text order. -/
def scanP {α : Type} (f : List Char → Nat → Option (Nat × α)) (content : List Char) :
    List (Nat × Nat × α) :=
  scanGo f content (content.length + 1) 0

/-- Canonical status of a test-case record (`passed`/`failed`/`skipped`). -/
inductive Status where
  | passed
  | failed
  | skipped
deriving DecidableEq, Repr

/-- A normalized test-case record as produced by the parsers.  The optional
`debug_log` key of the Python dictionaries is never populated by any parser
and is omitted. -/
structure TestCase where
  name : List Char
  status : Status
  duration_ms : Nat
  error_log : Option (List Char)
deriving DecidableEq, Repr

def tcDefault : TestCase := ⟨[], Status.failed, 0, none⟩

/-! ## GoogleTestParser

`run_pattern  = r'\[ RUN\s+\]\s+(\S+)'`
`ok_pattern   = r'\[\s+OK\s+\]\s+(\S+)\s+\((\d+)\s+ms\)'`
`failed_pattern = r'\[\s+FAILED\s+\]\s+(\S+)\s+\((\d+)\s+ms\)'`

In each of these patterns every greedy quantifier is followed by a token
that its own character class excludes (`\s+` by a non-space literal, `\S+`
by `\s`, `\d+` by `\s`), so backtracking never revisits a shorter run and
each match is the obvious maximal-run decomposition. -/

/-- Match of `run_pattern` at `i`; yields the end position and the captured
name (`group(1)`; `.strip()` of a `\S+` capture is the identity). -/
def matchRunAt (content : List Char) (i : Nat) : Option (Nat × List Char) :=
  let s := content.drop i
  if isPre "[ RUN".data s then
    let s1 := s.drop 5
    let w1 := cnt pySpace s1
    if w1 = 0 then none else
    let s2 := s1.drop w1
    if s2.head? = some ']' then
      let s3 := s2.drop 1
      let w2 := cnt pySpace s3
      if w2 = 0 then none else
      let nm := (s3.drop w2).takeWhile (fun c => ! pySpace c)
      if nm.isEmpty then none
      else some (i + 5 + w1 + 1 + w2 + nm.length, nm)
    else none
  else none

/-- Match of `ok_pattern`/`failed_pattern` at `i` (the two only differ in the
literal tag), yielding the end position, captured name and duration. -/
def matchResAt (tag : List Char) (content : List Char) (i : Nat) :
    Option (Nat × List Char × Nat) :=
  let s := content.drop i
  if s.head? = some '[' then
    let s1 := s.drop 1
    let w1 := cnt pySpace s1
    if w1 = 0 then none else
    let s2 := s1.drop w1
    if isPre tag s2 then
      let s3 := s2.drop tag.length
      let w2 := cnt pySpace s3
      if w2 = 0 then none else
      let s4 := s3.drop w2
      if s4.head? = some ']' then
        let s5 := s4.drop 1
        let w3 := cnt pySpace s5
        if w3 = 0 then none else
        let nm := (s5.drop w3).takeWhile (fun c => ! pySpace c)
        if nm.isEmpty then none else
        let s6 := (s5.drop w3).drop nm.length
        let w4 := cnt pySpace s6
        if w4 = 0 then none else
        let s7 := s6.drop w4
        if s7.head? = some '(' then
          let s8 := s7.drop 1
          let d := cnt pyDigit s8
          if d = 0 then none else
          let s9 := s8.drop d
          let w5 := cnt pySpace s9
          if w5 = 0 then none else
          if isPre "ms)".data (s9.drop w5) then
            some (i + 1 + w1 + tag.length + w2 + 1 + w3 + nm.length + w4 + 1 + d + w5 + 3,
              nm, natOfDigits (s8.take d))
          else none
        else none
      else none
    else none
  else none

def matchOkAt (content : List Char) (i : Nat) : Option (Nat × List Char × Nat) :=
  matchResAt "OK".data content i

def matchFailedAt (content : List Char) (i : Nat) : Option (Nat × List Char × Nat) :=
  matchResAt "FAILED".data content i

/-- A `[ RUN ]` marker occurrence: start, end, captured name. -/
structure GRun where
  start : Nat
  stop : Nat
  name : List Char
deriving DecidableEq, Repr

def grDefault : GRun := ⟨0, 0, []⟩

/-- An `OK`/`FAILED` marker occurrence as stored in `result_map`. -/
structure RMatch where
  pos : Nat
  stop : Nat
  name : List Char
  status : Status
  duration_ms : Nat
deriving DecidableEq, Repr

/-- `run_matches = list(run_pattern.finditer(content))`. -/
def googleRuns (content : List Char) : List GRun :=
  (scanP matchRunAt content).map fun t => ⟨t.1, t.2.1, t.2.2⟩

/-- The iteration order of `result_map.items()`: a Python `dict` iterates in
insertion order, and the code inserts every `OK` match (in text order) before
any `FAILED` match.  The keys (match start positions) are pairwise distinct,
so no insertion overwrites another. -/
def googleResults (content : List Char) : List RMatch :=
  ((scanP matchOkAt content).map fun t => ⟨t.1, t.2.1, t.2.2.1, Status.passed, t.2.2.2⟩)
    ++ ((scanP matchFailedAt content).map fun t => ⟨t.1, t.2.1, t.2.2.1, Status.failed, t.2.2.2⟩)

/-- The loop `for pos, res in result_map.items(): if pos > run_start and
res['name'] == test_name: ... break`. -/
def googleFind (content : List Char) (rm : GRun) : Option RMatch :=
  (googleResults content).find? fun r => decide (rm.start < r.pos) && r.name == rm.name

/-- `test_error_pattern = r'(test/[^\n:]+:\d+:[^\n]*(?:\n(?!\[)[^\n]*)*)'`:
the trailing loop, greedily consuming a `'\n'` and the following line while
the character after the `'\n'` is not `'['` (a negative lookahead succeeds at
the end of the subject).  Returns the number of characters consumed. -/
def testErrContGo : Nat → List Char → Nat
  | 0, _ => 0
  | _, [] => 0
  | Nat.succ fuel, c :: rest =>
    if c = '\n' then
      match rest.head? with
      | some '[' => 0
      | _ =>
        let ln := cnt (fun c2 => c2 ≠ '\n') rest
        1 + ln + testErrContGo fuel (rest.drop ln)
    else 0

/-- Each loop iteration consumes at least the `'\n'`, so a fuel of
`length + 1` never runs out before the loop stops by itself. -/
def testErrCont (l : List Char) : Nat := testErrContGo (l.length + 1) l

/-- Match of `test_error_pattern` at `i` against `content[:endpos]`; yields
the match end.  Every greedy run is again forced maximal by the literal that
follows it. -/
def matchTestErrAt (content : List Char) (endpos i : Nat) : Option Nat :=
  let subj := content.take endpos
  let s := subj.drop i
  if isPre "test/".data s then
    let s1 := s.drop 5
    let r1 := cnt (fun c => !(c = '\n' || c = ':')) s1
    if r1 = 0 then none else
    let s2 := s1.drop r1
    if s2.head? = some ':' then
      let s3 := s2.drop 1
      let d := cnt pyDigit s3
      if d = 0 then none else
      let s4 := s3.drop d
      if s4.head? = some ':' then
        let s5 := s4.drop 1
        let rest := cnt (fun c => c ≠ '\n') s5
        some (i + 5 + r1 + 1 + d + 1 + rest + testErrCont (s5.drop rest))
      else none
    else none
  else none

/-- `test_error_pattern.search(content, pos, endpos)`: the leftmost position
at which the pattern matches; yields `(start, end)`. -/
def searchTestErr (content : List Char) (pos endpos : Nat) : Option (Nat × Nat) :=
  firstSome (fun i => (matchTestErrAt content endpos i).map fun e => (i, e))
    (List.range' pos (endpos + 1 - pos))

/-- Error log of the branch with a matched `FAILED` marker: window between
the end of the `RUN` match (`errA`) and the start of the failure match
(`errB`), preferring the `test/...` sub-window unless it leaves more than 50
characters of the window unconsumed. -/
def googleErrFound (content : List Char) (errA errB : Nat) : Option (List Char) :=
  let el := match searchTestErr content errA errB with
    | some m =>
      if m.2 < errB - 50 then pyStrip (extract content errA errB)
      else pyStrip (extract content m.1 (Nat.min m.2 errB))
    | none => pyStrip (extract content errA errB)
  if el.isEmpty then none else some (el.take 2048)

def dbgTag : List Char := "[DEBUG]".data
def infoTag : List Char := "[INFO]".data

/-- The line filter of the no-completion branch: split the stripped window on
newlines, strip each line and drop it when it is empty or starts with
`[DEBUG]` or `[INFO]`. -/
def googleFallbackLines (content : List Char) (errA errB : Nat) : List (List Char) :=
  (splitNl (pyStrip (extract content errA errB))).filterMap fun l =>
    let l2 := pyStrip l
    if l2.isEmpty || isPre dbgTag l2 || isPre infoTag l2 then none else some l2

/-- `'\n'.join(error_lines[:20])[:2048]` of the no-completion branch. -/
def googleFallbackVal (content : List Char) (errA errB : Nat) : List Char :=
  (joinNl ((googleFallbackLines content errA errB).take 20)).take 2048

def googleFallbackOpt (content : List Char) (errA errB : Nat) : Option (List Char) :=
  if (googleFallbackLines content errA errB).isEmpty then none
  else some (googleFallbackVal content errA errB)

/-- Error log of the no-completion branch: window between the end of the
`RUN` match and the next `RUN` start (`errB`). -/
def googleErrMissing (content : List Char) (errA errB : Nat) : Option (List Char) :=
  match searchTestErr content errA errB with
  | some m =>
    let el := pyStrip (extract content m.1 errB)
    if el.isEmpty then none else some (el.take 2048)
  | none => googleFallbackOpt content errA errB

/-- `next_run_start`: start of the first `RUN` match after this one, or
`len(content)`. -/
def googleNext (content : List Char) (rm : GRun) : Nat :=
  (((googleRuns content).find? fun nr => decide (rm.start < nr.start)).map GRun.start).getD
    content.length

/-- The record built for one `RUN` match. -/
def googleBuild (content : List Char) (rm : GRun) : TestCase :=
  match googleFind content rm with
  | some r =>
    if r.status = Status.failed then
      ⟨rm.name, r.status, r.duration_ms, googleErrFound content rm.stop r.pos⟩
    else ⟨rm.name, r.status, r.duration_ms, none⟩
  | none => ⟨rm.name, Status.failed, 0, googleErrMissing content rm.stop (googleNext content rm)⟩

/-- `GoogleTestParser.parse`. -/
def googleTestParse (content : List Char) : List TestCase :=
  (googleRuns content).map (googleBuild content)

/-! ## GoTestParser

`test_pattern   = r'^=== RUN\s+(.+)$'` (MULTILINE)
`result_pattern = r'^--- (PASS|FAIL|SKIP):\s+(.+?)\s+\(([\d.]+)s\)$'` (MULTILINE)
`error_sections = r'--- FAIL:\s+(.+?)\s+\([\d.]+s\)\n(.*?)(?=---|===|\Z)'`
(MULTILINE | DOTALL)

Durations are captured by `[\d.]+` and passed through `float(...) * 1000`
then `int(...)`; `float` raises `ValueError` when the capture has two dots
or no digit, and `int` raises `OverflowError` when the product has
overflowed to `inf`; either exception aborts the whole parse (modelled by
`Option`). -/

/-- Whether `float(s)` succeeds on a capture of `[\d.]+` (`ValueError`
otherwise: two dots, or no digit at all). -/
def goFloatValid (s : List Char) : Bool :=
  (s.filter fun c => c = '.').length ≤ 1 && (s.filter pyDigit).length ≥ 1

/-- Number of digits after the (first) dot. -/
def fracLen (s : List Char) : Nat :=
  match s.dropWhile fun c => c ≠ '.' with
  | [] => 0
  | _ :: rest => rest.length

/-- A nonnegative CPython `float`: a binary64 value `n * 2^e` (with
`n < 2^53`; normal values have `2^52 ≤ n`, subnormal ones `e = -1074`), or
the overflow result `inf`. -/
inductive PyFloat where
  | finite (n : Nat) (e : Int)
  | inf
deriving DecidableEq, Repr

/-- `⌊log2 n⌋` (and `0` for `n = 0`), written with explicit fuel so that
the kernel can evaluate it; a fuel of `n` is ample since every step halves
the argument. -/
def natLog2F : Nat → Nat → Nat
  | 0, _ => 0
  | fuel + 1, n => if n < 2 then 0 else natLog2F fuel (n / 2) + 1

def natLog2 (n : Nat) : Nat := natLog2F n n

/-- Round the nonnegative rational `A / B` (`B ≥ 1`) to the nearest binary64
value, ties to an even significand, overflowing to `inf` from
`(2^53 - 1/2) * 2^971` on — the correct rounding that CPython applies both
when `float` parses a decimal string and to the exact result of a float
multiplication.  `e` is `⌊log2 (A/B)⌋` (the `2^1100` scaling makes the
integer log exact for every value down to far below the subnormal range),
and `F` is the exponent of one unit in the last place of the result. -/
def roundToBinary64 (A B : Nat) : PyFloat :=
  let e : Int := Int.ofNat (natLog2 (A * 2 ^ 1100 / B)) - 1100
  let F : Int := max (-1074) (e - 52)
  let A2 := if 0 ≤ F then A else A * 2 ^ F.natAbs
  let B2 := if 0 ≤ F then B * 2 ^ F.toNat else B
  let q := A2 / B2
  let r := A2 % B2
  let M := if B2 < 2 * r then q + 1
    else if 2 * r = B2 then (if q % 2 = 1 then q + 1 else q) else q
  let M2 := if M = 2 ^ 53 then 2 ^ 52 else M
  let F2 : Int := if M = 2 ^ 53 then F + 1 else F
  if 971 < F2 then PyFloat.inf else PyFloat.finite M2 F2

/-- `float(s)` on a syntactically valid `[\d.]+` capture: correctly rounded
decimal-to-double conversion; CPython returns `inf` on overflow. -/
def pyFloatOfCapture (s : List Char) : PyFloat :=
  roundToBinary64 (natOfDigits (s.filter pyDigit)) (10 ^ fracLen s)

/-- Double-precision `x * 1000`: the exact product rounded back to a
binary64 value. -/
def pyFloatMul1000 : PyFloat → PyFloat
  | PyFloat.inf => PyFloat.inf
  | PyFloat.finite n e =>
    if 0 ≤ e then roundToBinary64 (n * 1000 * 2 ^ e.toNat) 1
    else roundToBinary64 (n * 1000) (2 ^ e.natAbs)

/-- `int(x)` on a nonnegative float: truncation toward zero; `int` of `inf`
raises `OverflowError` (`none`). -/
def pyFloatToInt : PyFloat → Option Nat
  | PyFloat.inf => none
  | PyFloat.finite n e => some (if 0 ≤ e then n * 2 ^ e.toNat else n / 2 ^ e.natAbs)

/-- `int(float(s) * 1000)` on a `[\d.]+` capture, in IEEE-754 binary64
arithmetic; `none` when the expression raises — `ValueError` from `float`
on a malformed capture, or `OverflowError` from `int` when the product
overflowed to `inf`. -/
def goDur? (s : List Char) : Option Nat :=
  if goFloatValid s then pyFloatToInt (pyFloatMul1000 (pyFloatOfCapture s)) else none

/-- The millisecond value stored in `result_map`; the parsers read it only
under the guard that the conversion did not raise. -/
def goDurMs (s : List Char) : Nat := (goDur? s).getD 0

/-- Match of `test_pattern` at a line start `i`; yields end and `group(1)`.
`\s+` is greedy and may cross newlines; `(.+)` is greedy within one line and
`$` (MULTILINE) always holds after it, so the backtracking outcome is: if a
non-space character follows the maximal whitespace run, the group starts
there; otherwise (whitespace to the end of the text) the group starts at the
last whitespace character after position `i+7` that is not a newline. -/
def matchGoRunAt (content : List Char) (i : Nat) : Option (Nat × List Char) :=
  if lineStart content i && isPre "=== RUN".data (content.drop i) then
    let j := i + 7
    let w := cnt pySpace (content.drop j)
    if w = 0 then none else
    let k := j + w
    if k < content.length then
      let ln := cnt (fun c => c ≠ '\n') (content.drop k)
      some (k + ln, extract content k (k + ln))
    else
      match (List.range' (j + 1) (content.length - (j + 1))).reverse.find?
          (fun t => content.getD t '\n' ≠ '\n') with
      | some t =>
        let ln := cnt (fun c => c ≠ '\n') (content.drop t)
        some (t + ln, extract content t (t + ln))
      | none => none
  else none

/-- Captures of one `result_pattern` match. -/
structure GoRes where
  st : Status
  nameRaw : List Char
  dur : List Char
deriving DecidableEq, Repr

/-- The tail `\s+\(([\d.]+)s\)$` of `result_pattern` at position `e`: each
greedy run is forced maximal by the literal after it.  Yields the match end
and the duration capture. -/
def goResTail (content : List Char) (e : Nat) : Option (Nat × List Char) :=
  let s := content.drop e
  let w2 := cnt pySpace s
  if w2 = 0 then none else
  let s1 := s.drop w2
  if s1.head? = some '(' then
    let s2 := s1.drop 1
    let d := cnt pyDigitDot s2
    if d = 0 then none else
    if isPre "s)".data (s2.drop d) then
      let endP := e + w2 + 1 + d + 2
      if endP = content.length || content.getD endP ' ' = '\n' then some (endP, s2.take d)
      else none
    else none
  else none

/-- Match of `result_pattern` at a line start `i`.  The leading `\s+` after
the colon is greedy (candidate lengths descending), the lazy `(.+?)` grows
one non-newline character at a time (candidate lengths ascending), and the
tail after it is deterministic. -/
def matchGoResultAt (content : List Char) (i : Nat) : Option (Nat × GoRes) :=
  if lineStart content i && isPre "--- ".data (content.drop i) then
    let a := i + 4
    let stOpt : Option (Status × Nat) :=
      if isPre "PASS:".data (content.drop a) then some (Status.passed, a + 5)
      else if isPre "FAIL:".data (content.drop a) then some (Status.failed, a + 5)
      else if isPre "SKIP:".data (content.drop a) then some (Status.skipped, a + 5)
      else none
    match stOpt with
    | none => none
    | some (st, j) =>
      let w := cnt pySpace (content.drop j)
      firstSome (fun L =>
          let t0 := j + L
          firstSome (fun len =>
              (goResTail content (t0 + len)).map fun r =>
                (r.1, ⟨st, extract content t0 (t0 + len), r.2⟩))
            (List.range' 1 (cnt (fun c => c ≠ '\n') (content.drop t0))))
        ((List.range' 1 w).reverse)
  else none

/-- Captures of one `error_sections` match: the name and the positions of
the `group(2)` window. -/
structure GoFail where
  nameRaw : List Char
  errA : Nat
  errB : Nat
deriving DecidableEq, Repr

/-- The tail `\s+\([\d.]+s\)\n(.*?)(?=---|===|\Z)` of `error_sections` for a
name candidate ending at `e`: deterministic up to the literal newline, then
the lazy `(.*?)` stops at the first position where `---`, `===` or the end
of the text follows. -/
def goFailTail (content : List Char) (t0 e : Nat) : Option (Nat × GoFail) :=
  let s := content.drop e
  let w2 := cnt pySpace s
  if w2 = 0 then none else
  let s1 := s.drop w2
  if s1.head? = some '(' then
    let s2 := s1.drop 1
    let d := cnt pyDigitDot s2
    if d = 0 then none else
    if isPre "s)".data (s2.drop d) then
      let afterParen := e + w2 + 1 + d + 2
      if afterParen < content.length && content.getD afterParen ' ' = '\n' then
        let p0 := afterParen + 1
        (firstSome (fun q =>
            if isPre "---".data (content.drop q) || isPre "===".data (content.drop q)
                || q = content.length
            then some q else none)
          (List.range' p0 (content.length + 1 - p0))).map
          fun q => (q, ⟨extract content t0 e, p0, q⟩)
      else none
    else none
  else none

/-- Match of `error_sections` at `i` (no anchor; DOTALL, so the lazy
`(.+?)` may cross newlines). -/
def matchGoFailAt (content : List Char) (i : Nat) : Option (Nat × GoFail) :=
  if isPre "--- FAIL:".data (content.drop i) then
    let j := i + 9
    let w := cnt pySpace (content.drop j)
    firstSome (fun L =>
        let t0 := j + L
        firstSome (fun len => goFailTail content t0 (t0 + len))
          (List.range' 1 (content.length - t0)))
      ((List.range' 1 w).reverse)
  else none

/-- The stripped names of `test_matches`, in discovery order. -/
def goRunNames (content : List Char) : List (List Char) :=
  (scanP matchGoRunAt content).map fun t => pyStrip t.2.2

def goResultList (content : List Char) : List GoRes :=
  (scanP matchGoResultAt content).map fun t => t.2.2

/-- Lookup in `result_map`: a Python `dict` keyed by the stripped name, so a
later insertion for the same name overwrites an earlier one. -/
def goResLookup (content : List Char) (name : List Char) : Option (Status × Nat) :=
  ((goResultList content).reverse.find? fun p => pyStrip p.nameRaw == name).map
    fun p => (p.st, goDurMs p.dur)

/-- Lookup in `error_map` (`'--- FAIL'` sections), later entries winning;
the stored value is `error_content.strip()[:2048]`. -/
def goErrLookup (content : List Char) (name : List Char) : Option (List Char) :=
  (((scanP matchGoFailAt content).map fun t => t.2.2).reverse.find?
      fun p => pyStrip p.nameRaw == name).map
    fun p => (pyStrip (extract content p.errA p.errB)).take 2048

/-- The construction loop over `test_matches`: names already processed are
skipped, and a name absent from `result_map` produces no record. -/
def goBuild (content : List Char) : List (List Char) → List (List Char) → List TestCase
  | [], _ => []
  | name :: rest, seen =>
    if seen.contains name then goBuild content rest seen
    else
      match goResLookup content name with
      | some (st, d) => ⟨name, st, d, goErrLookup content name⟩ :: goBuild content rest (name :: seen)
      | none => goBuild content rest (name :: seen)

/-- `GoTestParser.parse`; `none` models the exception raised while
`result_map` is being built — `ValueError` from `float` on a malformed
duration capture, or `OverflowError` from `int` on an overflowed product. -/
def goTestParse (content : List Char) : Option (List TestCase) :=
  if (goResultList content).any (fun p => (goDur? p.dur).isNone) then none
  else some (goBuild content (goRunNames content) [])

/-! ## PytestParser

`pytest_pattern =
  r'^(.+?)::(.+?)\s+(PASSED|FAILED|SKIPPED|ERROR)(?:\s+\[.*?\])?(?:\s+\[([\d.]+)s\])?$'`
(MULTILINE), and per failing match
`error_pattern =
  rf'FAILED\s+{re.escape(file)}::{re.escape(test)}.*?\n(.*?)(?=\n\S|\Z)'`
(MULTILINE | DOTALL) searched from the end of the main match. -/

/-- Captures of one `pytest_pattern` match. -/
structure PyM where
  file : List Char
  test : List Char
  st : Status
  dur : Option (List Char)
deriving DecidableEq, Repr

/-- The second optional group `(?:\s+\[([\d.]+)s\])?` followed by `$` at
position `c`: the bracketed form is tried first (its inner runs are forced
maximal), then the empty alternative; each candidate must satisfy `$`. -/
def pyTail2 (content : List Char) (c : Nat) : Option (Nat × Option (List Char)) :=
  let dollar : Nat → Bool := fun e =>
    decide (e = content.length) || content.getD e ' ' = '\n'
  let present : Option (Nat × List Char) :=
    let s := content.drop c
    let w2 := cnt pySpace s
    if w2 = 0 then none else
    let s1 := s.drop w2
    if s1.head? = some '[' then
      let s2 := s1.drop 1
      let d := cnt pyDigitDot s2
      if d = 0 then none else
      if isPre "s]".data (s2.drop d) then some (c + w2 + 1 + d + 2, s2.take d)
      else none
    else none
  match present with
  | some r => if dollar r.1 then some (r.1, some r.2)
              else if dollar c then some (c, none) else none
  | none => if dollar c then some (c, none) else none

/-- The first optional group `(?:\s+\[.*?\])?` at position `b`, then the rest
of the pattern: the lazy `.*?` stops at each `']'` of the same line in turn
(ascending), and the empty alternative comes last. -/
def pyOpt1 (content : List Char) (b : Nat) : Option (Nat × Option (List Char)) :=
  let inner : List Nat :=
    let s := content.drop b
    let w1 := cnt pySpace s
    if w1 = 0 then [] else
    let s1 := s.drop w1
    if s1.head? = some '[' then
      let bs := b + w1 + 1
      ((List.range' bs (cnt (fun c => c ≠ '\n') (content.drop bs))).filter
          fun k => content.getD k ' ' = ']').map (· + 1)
    else []
  firstSome (fun e => pyTail2 content e) (inner ++ [b])

/-- Match of `pytest_pattern` at a line start `i`: the two lazy groups grow
one non-newline character at a time (outer first), the `\s+` and the
alternation after them are deterministic (the four outcome literals start
with distinct letters). -/
def matchPyAt (content : List Char) (i : Nat) : Option (Nat × PyM) :=
  if lineStart content i then
    firstSome (fun len1 =>
        if isPre "::".data (content.drop (i + len1)) then
          let t2 := i + len1 + 2
          firstSome (fun len2 =>
              let e2 := t2 + len2
              let w := cnt pySpace (content.drop e2)
              if w = 0 then none else
              let a := e2 + w
              let altOpt : Option (Status × Nat) :=
                if isPre "PASSED".data (content.drop a) then some (Status.passed, a + 6)
                else if isPre "FAILED".data (content.drop a) then some (Status.failed, a + 6)
                else if isPre "SKIPPED".data (content.drop a) then some (Status.skipped, a + 7)
                else if isPre "ERROR".data (content.drop a) then some (Status.failed, a + 5)
                else none
              match altOpt with
              | none => none
              | some (st, b) =>
                (pyOpt1 content b).map fun r =>
                  (r.1, ⟨extract content i (i + len1), extract content t2 e2, st, r.2⟩))
            (List.range' 1 (cnt (fun c => c ≠ '\n') (content.drop t2)))
        else none)
      (List.range' 1 (cnt (fun c => c ≠ '\n') (content.drop i)))
  else none

/-- Match of the per-failure `error_pattern` at `i`: after `FAILED`, the
greedy `\s+` (descending) must be followed by the escaped literal
`file::test`; the lazy `.*?\n` stops at the first newline; the lazy
`(.*?)` group stops at the first position followed by `\n\S` or the end of
the text.  Yields the positions of `group(1)`. -/
def pyErrMatchAt (content : List Char) (file test : List Char) (i : Nat) :
    Option (Nat × Nat) :=
  if isPre "FAILED".data (content.drop i) then
    let j := i + 6
    let w := cnt pySpace (content.drop j)
    let lit := file ++ "::".data ++ test
    firstSome (fun L =>
        if isPre lit (content.drop (j + L)) then
          let p := j + L + lit.length
          match firstSome (fun q => if content.getD q ' ' = '\n' then some q else none)
              (List.range' p (content.length - p)) with
          | none => none
          | some q =>
            let p0 := q + 1
            (firstSome (fun q2 =>
                if decide (q2 = content.length) ||
                    (content.getD q2 ' ' = '\n' && decide (q2 + 1 < content.length) &&
                      ! pySpace (content.getD (q2 + 1) ' '))
                then some q2 else none)
              (List.range' p0 (content.length + 1 - p0))).map fun q2 => (p0, q2)
        else none)
      ((List.range' 1 w).reverse)
  else none

/-- `error_pattern.search(content, pos=match.end())`. -/
def pyErrSearch (content : List Char) (pos : Nat) (file test : List Char) :
    Option (Nat × Nat) :=
  firstSome (pyErrMatchAt content file test)
    (List.range' pos (content.length + 1 - pos))

/-- `PytestParser.parse`.  A malformed duration capture raises `ValueError`
inside the `try/except ValueError`, leaving `duration_ms = 0`; an
astronomically large capture whose product overflows would instead raise an
`OverflowError` that the `except` clause does not catch, aborting the parse
— that abort path is not modelled (the record here keeps `0`).  For failed
records the error search stores `group(1).strip()[:2048]` (even when
empty). -/
def pytestParse (content : List Char) : List TestCase :=
  (scanP matchPyAt content).map fun t =>
    let m := t.2.2
    let nm := m.file ++ "::".data ++ m.test
    let dms : Nat := match m.dur with
      | none => 0
      | some s => if goFloatValid s then goDurMs s else 0
    if m.st = Status.failed then
      match pyErrSearch content t.2.1 m.file m.test with
      | some pq => ⟨nm, m.st, dms, some ((pyStrip (extract content pq.1 pq.2)).take 2048)⟩
      | none => ⟨nm, m.st, dms, none⟩
    else ⟨nm, m.st, dms, none⟩

/-! ## GenericParser -/

/-- `GenericParser.parse`: try Google Test, then Go test, then pytest, and
return the first non-empty result list; `[]` when none matches.  The
`ValueError`/`OverflowError` that `GoTestParser.parse` may raise propagates
(`none`). -/
def genericParse (content : List Char) : Option (List TestCase) :=
  let t1 := googleTestParse content
  if t1.isEmpty then
    match goTestParse content with
    | none => none
    | some t2 =>
      if t2.isEmpty then
        let t3 := pytestParse content
        if t3.isEmpty then some [] else some t3
      else some t2
  else some t1

/-! ## Concrete inputs used by the claim theorems -/

def c1ex : List Char := "[ RUN      ] A\n[  FAILED  ] A (9 ms)\n[       OK ] A (4 ms)".data

def c1wEx : List Char := "[ RUN      ] A\n[       OK ] A (4 ms)".data

def c1wM : RMatch := ⟨15, 36, "A".data, Status.passed, 4⟩

def c2ex : List Char := "=== RUN   x".data

def c2wEx : List Char := "=== RUN   x\n--- PASS: x (0.1s)".data

def c2wTC : TestCase := ⟨"x".data, Status.passed, 100, none⟩

def c3ex : List Char := "[ RUN      ] A\n[ RUN      ] A\n[       OK ] A (5 ms)".data

def c3wM : RMatch := ⟨30, 51, "A".data, Status.passed, 5⟩

def c4ex : List Char := "[ RUN      ] A\n[ RUN      ] B\n[       OK ] B (4 ms)\n[  FAILED  ] A (9 ms)".data

def c5wEx : List Char := "[ RUN      ] W\noops".data

def c5wTC : TestCase := ⟨"W".data, Status.failed, 0, some "oops".data⟩

def c7ex : List Char := "[ RUN      ] A\nx\n[DEBUG] q\ny".data

def c7wEx : List Char := "=== RUN   T\n--- FAIL: T (1s)\nboom\n".data

def c7wTC : TestCase := ⟨"T".data, Status.failed, 1000, some "boom".data⟩

def c8ex : List Char := "=== RUN   name\n--- PASS: name (0.01s)".data

/-- A syntactically valid duration capture on which IEEE-754 evaluation and
exact truncating multiplication disagree. -/
def c8cap : List Char := "1.9999999999999999".data

def c8cex : List Char := "=== RUN   t\n--- PASS: t (1.9999999999999999s)".data

/-- The conversion rule exactly as the claim states it (follows the spec's
words, for comparison with the code's `goDur?`): truncating multiplication
of the captured decimal value — as an exact rational — by 1000. -/
def truncMul1000 (s : List Char) : Nat :=
  natOfDigits (s.filter pyDigit) * 1000 / 10 ^ fracLen s

def c9ex : List Char :=
  "[ RUN      ] A\na\nb\nc\nd\ne\nf\ng\nh\ni\nj\nk\nl\nm\nn\no\np\nq\nr\ns\nt\nu".data

/-- The first 20 surviving lines of the `c9ex` window, as the code emits. -/
def c9twenty : List Char := "a\nb\nc\nd\ne\nf\ng\nh\ni\nj\nk\nl\nm\nn\no\np\nq\nr\ns\nt".data

/-- The full `c9ex` window (21 lines), which the claim says should be kept. -/
def c9full : List Char := "a\nb\nc\nd\ne\nf\ng\nh\ni\nj\nk\nl\nm\nn\no\np\nq\nr\ns\nt\nu".data

def c9wEx : List Char := "[ RUN      ] A\nxx".data

def c10wEx : List Char := "[ RUN      ] N\n[       OK ] N (3 ms)".data

def c10wTC : TestCase := ⟨"N".data, Status.passed, 3, none⟩

/-! ## Contiguous-substring infrastructure -/

/-- `a` occurs as a contiguous substring of `c`. -/
def isSeg (a c : List Char) : Prop := ∃ x y, c = x ++ a ++ y

/-- Executable form of `isSeg`. -/
def segB (a c : List Char) : Bool :=
  (List.range (c.length + 1)).any fun i => isPre a (c.drop i)

theorem isPre_iff (p s : List Char) : isPre p s = true ↔ ∃ t, s = p ++ t := by
  induction p generalizing s with
  | nil => simp [isPre, List.isPrefixOf]
  | cons a as ih =>
    cases s with
    | nil => simp [isPre, List.isPrefixOf]
    | cons b bs =>
      simp only [isPre, List.isPrefixOf, Bool.and_eq_true, beq_iff_eq] at *
      constructor
      · rintro ⟨rfl, h⟩
        obtain ⟨t, rfl⟩ := (ih bs).mp h
        exact ⟨t, rfl⟩
      · rintro ⟨t, ht⟩
        obtain ⟨rfl, rfl⟩ := List.cons.inj ht
        exact ⟨rfl, (ih _).mpr ⟨t, rfl⟩⟩

theorem seg_trans {a b c : List Char} (h1 : isSeg a b) (h2 : isSeg b c) : isSeg a c := by
  obtain ⟨x, y, rfl⟩ := h1
  obtain ⟨u, v, rfl⟩ := h2
  exact ⟨u ++ x, y ++ v, by simp⟩

theorem seg_take (l : List Char) (n : Nat) : isSeg (l.take n) l :=
  ⟨[], l.drop n, by simp [List.take_append_drop]⟩

theorem seg_drop (l : List Char) (n : Nat) : isSeg (l.drop n) l :=
  ⟨l.take n, [], by simp [List.take_append_drop]⟩

theorem seg_extract (c : List Char) (a b : Nat) : isSeg (extract c a b) c :=
  seg_trans (seg_take (c.drop a) (b - a)) (seg_drop c a)

theorem seg_strip (l : List Char) : isSeg (pyStrip l) l := by
  have h2 := List.takeWhile_append_dropWhile pySpace (l.dropWhile pySpace).reverse
  have h3 : l.dropWhile pySpace =
      ((l.dropWhile pySpace).reverse.dropWhile pySpace).reverse ++
        ((l.dropWhile pySpace).reverse.takeWhile pySpace).reverse := by
    have h4 := congrArg List.reverse h2
    rw [List.reverse_append, List.reverse_reverse] at h4
    exact h4.symm
  refine ⟨l.takeWhile pySpace, ((l.dropWhile pySpace).reverse.takeWhile pySpace).reverse, ?_⟩
  calc l = l.takeWhile pySpace ++ l.dropWhile pySpace :=
        (List.takeWhile_append_dropWhile pySpace l).symm
    _ = _ := by rw [h3]; simp [pyStrip]

theorem isSeg_iff_segB (a c : List Char) : isSeg a c ↔ segB a c = true := by
  constructor
  · rintro ⟨x, y, rfl⟩
    apply List.any_eq_true.mpr
    refine ⟨x.length, List.mem_range.mpr ?_, ?_⟩
    · simp only [List.length_append]
      omega
    · have hd : (x ++ a ++ y).drop x.length = a ++ y := by
        rw [List.append_assoc, List.drop_left]
      rw [hd]
      exact (isPre_iff a (a ++ y)).mpr ⟨y, rfl⟩
  · intro h
    obtain ⟨i, _, hp⟩ := List.any_eq_true.mp h
    obtain ⟨t, ht⟩ := (isPre_iff a (c.drop i)).mp hp
    exact ⟨c.take i, t, by rw [List.append_assoc, ← ht, List.take_append_drop]⟩

theorem length_take_le (l : List Char) (n : Nat) : (l.take n).length ≤ n := by
  simp only [List.length_take]
  omega

/-! ## Shape lemmas for the produced error logs -/

/-- Every error log of `googleErrFound` is the 2048-truncation of a stripped
slice of the text. -/
theorem googleErrFound_shape (content : List Char) (a b : Nat) (e : List Char)
    (h : googleErrFound content a b = some e) :
    ∃ x y, e = (pyStrip (extract content x y)).take 2048 := by
  simp only [googleErrFound] at h
  rcases hs : searchTestErr content a b with _ | m <;> rw [hs] at h <;> dsimp only at h
  · split at h
    · exact absurd h (by simp)
    · exact ⟨a, b, (Option.some.inj h).symm⟩
  · by_cases hc : m.2 < b - 50
    · rw [if_pos hc] at h
      split at h
      · exact absurd h (by simp)
      · exact ⟨a, b, (Option.some.inj h).symm⟩
    · rw [if_neg hc] at h
      split at h
      · exact absurd h (by simp)
      · exact ⟨m.1, Nat.min m.2 b, (Option.some.inj h).symm⟩

/-- Every error log of `googleErrMissing` is either the 2048-truncation of a
stripped slice of the text, or the joined filtered-line fallback value. -/
theorem googleErrMissing_shape (content : List Char) (a b : Nat) (e : List Char)
    (h : googleErrMissing content a b = some e) :
    (∃ x y, e = (pyStrip (extract content x y)).take 2048) ∨
      (∃ x y, e = googleFallbackVal content x y) := by
  simp only [googleErrMissing] at h
  rcases hs : searchTestErr content a b with _ | m <;> rw [hs] at h <;> dsimp only at h
  · simp only [googleFallbackOpt] at h
    split at h
    · exact absurd h (by simp)
    · exact Or.inr ⟨a, b, (Option.some.inj h).symm⟩
  · split at h
    · exact absurd h (by simp)
    · exact Or.inl ⟨m.1, b, (Option.some.inj h).symm⟩

/-- Error-log shape of a record built by the Google Test parser. -/
theorem googleBuild_err_shape (content : List Char) (rm : GRun) (e : List Char)
    (h : (googleBuild content rm).error_log = some e) :
    (∃ x y, e = (pyStrip (extract content x y)).take 2048) ∨
      (∃ x y, e = googleFallbackVal content x y) := by
  simp only [googleBuild] at h
  split at h
  · rename_i r _
    split at h
    · exact Or.inl (googleErrFound_shape content rm.stop r.pos e h)
    · exact absurd h (by simp)
  · exact googleErrMissing_shape content rm.stop (googleNext content rm) e h

/-- Records of `goBuild` take their name from the processed start-marker
name list, their payload from `result_map`, and their error log from
`error_map`. -/
theorem goBuild_mem (content : List Char) (names seen : List (List Char)) (r : TestCase)
    (h : r ∈ goBuild content names seen) :
    r.name ∈ names ∧ (goResLookup content r.name).isSome = true ∧
      r.error_log = goErrLookup content r.name := by
  induction names generalizing seen with
  | nil => simp [goBuild] at h
  | cons name rest ih =>
    simp only [goBuild] at h
    split at h
    · have h2 := ih _ h
      exact ⟨List.mem_cons_of_mem _ h2.1, h2.2⟩
    · split at h
      · rename_i st d hres
        rcases List.mem_cons.mp h with rfl | h3
        · exact ⟨List.mem_cons_self _ _, by simp [hres], rfl⟩
        · have h2 := ih _ h3
          exact ⟨List.mem_cons_of_mem _ h2.1, h2.2⟩
      · have h2 := ih _ h
        exact ⟨List.mem_cons_of_mem _ h2.1, h2.2⟩

/-- Error-log shape of the `error_map` lookups of the Go test parser. -/
theorem goErrLookup_shape (content : List Char) (name e : List Char)
    (h : goErrLookup content name = some e) :
    ∃ x y, e = (pyStrip (extract content x y)).take 2048 := by
  simp only [goErrLookup, Option.map_eq_some'] at h
  obtain ⟨p, _, rfl⟩ := h
  exact ⟨p.errA, p.errB, rfl⟩

/-- Error-log shape of a record of the pytest parser. -/
theorem pytestParse_err_shape (content : List Char) (r : TestCase) (e : List Char)
    (hr : r ∈ pytestParse content) (h : r.error_log = some e) :
    ∃ x y, e = (pyStrip (extract content x y)).take 2048 := by
  simp only [pytestParse, List.mem_map] at hr
  obtain ⟨t, _, rfl⟩ := hr
  split at h
  · split at h
    · exact ⟨_, _, (Option.some.inj h).symm⟩
    · exact absurd h (by simp)
  · exact absurd h (by simp)

/-- The record at index `i` of the output is the one built for the `i`-th
start marker. -/
theorem googleParse_getD (content : List Char) (i : Nat)
    (h : i < (googleRuns content).length) :
    (googleTestParse content).getD i tcDefault =
      googleBuild content ((googleRuns content).getD i grDefault) := by
  have h2 : i < (googleTestParse content).length := by
    simpa [googleTestParse, List.length_map] using h
  rw [List.getD_eq_getElem _ _ h2, List.getD_eq_getElem _ _ h]
  simp [googleTestParse]

theorem googleBuild_name (content : List Char) (rm : GRun) :
    (googleBuild content rm).name = rm.name := by
  simp only [googleBuild]
  split
  · split <;> rfl
  · rfl

theorem googleBuild_payload (content : List Char) (rm : GRun) (m : RMatch)
    (hm : googleFind content rm = some m) :
    (googleBuild content rm).status = m.status ∧
      (googleBuild content rm).duration_ms = m.duration_ms := by
  refine ⟨?_, ?_⟩ <;> simp only [googleBuild, hm] <;> split <;> rfl

theorem googleBuild_none (content : List Char) (rm : GRun)
    (hm : googleFind content rm = none) :
    (googleBuild content rm).status = Status.failed ∧
      (googleBuild content rm).duration_ms = 0 := by
  refine ⟨?_, ?_⟩ <;> simp only [googleBuild, hm]

/-! ## Claim theorems -/

/-- C1 (corrected): in `GoogleTestParser.parse` the completion matched to a
start marker is the first entry of the correlation map — which lists every
`OK` marker in text order and then every `FAILED` marker in text order
(Python `dict` insertion order, not global position order) — whose position
is strictly after the start marker and whose captured name equals the start
marker's name; when no such entry exists the record falls back to
`failed`/`0`. -/
theorem c1_correlation_insertion_order (content : List Char) (i : Nat)
    (h : i < (googleRuns content).length) :
    (∀ m : RMatch,
        googleFind content ((googleRuns content).getD i grDefault) = some m →
        ((googleTestParse content).getD i tcDefault).status = m.status ∧
        ((googleTestParse content).getD i tcDefault).duration_ms = m.duration_ms) ∧
      (googleFind content ((googleRuns content).getD i grDefault) = none →
        ((googleTestParse content).getD i tcDefault).status = Status.failed ∧
        ((googleTestParse content).getD i tcDefault).duration_ms = 0) := by
  rw [googleParse_getD content i h]
  constructor
  · intro m hm
    exact googleBuild_payload content _ m hm
  · intro hm
    exact googleBuild_none content _ hm

/-- C1 counterexample: with a `FAILED A` marker before an `OK A` marker,
both after the start of `A`, the code attributes the `OK` marker (the map
iterates all `OK` entries first), not the positionally earlier `FAILED`
marker required by the claim (`failed`/9). -/
theorem c1_counterexample :
    (googleTestParse c1ex).map (fun r => (r.name, r.status, r.duration_ms)) =
        [("A".data, Status.passed, 4)] ∧
      (googleTestParse c1ex).map (fun r => (r.name, r.status, r.duration_ms)) ≠
        [("A".data, Status.failed, 9)] := by
  decide

theorem c1_witness :
    ((googleTestParse c1wEx).getD 0 tcDefault).status = Status.passed ∧
      ((googleTestParse c1wEx).getD 0 tcDefault).duration_ms = 4 := by
  have h := (c1_correlation_insertion_order c1wEx 0 (by decide)).1 c1wM (by decide)
  exact h

/-- C3 (corrected): completion markers are never consumed.  Each start
marker independently matches the first map entry after its own position
with an equal name, so when a completion for a duplicated name lies after a
second start of the same name, that second start's record also draws status
and duration from the map (the same marker can serve both starts) instead
of being reported as not completed. -/
theorem c3_completion_not_consumed (content : List Char) (i j : Nat)
    (_hi : i < (googleRuns content).length) (hj : j < (googleRuns content).length)
    (hname : ((googleRuns content).getD i grDefault).name =
      ((googleRuns content).getD j grDefault).name)
    (m : RMatch)
    (hm : googleFind content ((googleRuns content).getD i grDefault) = some m)
    (hpos : ((googleRuns content).getD j grDefault).start < m.pos) :
    ∃ m2 : RMatch,
      googleFind content ((googleRuns content).getD j grDefault) = some m2 ∧
        ((googleTestParse content).getD j tcDefault).status = m2.status ∧
        ((googleTestParse content).getD j tcDefault).duration_ms = m2.duration_ms := by
  have hmem : m ∈ googleResults content := List.mem_of_find?_eq_some hm
  have hpred := List.find?_some hm
  simp only [Bool.and_eq_true, decide_eq_true_eq, beq_iff_eq] at hpred
  rcases hfind : googleFind content ((googleRuns content).getD j grDefault) with _ | m2
  · exfalso
    have hnone := List.find?_eq_none.mp hfind m hmem
    simp only [Bool.and_eq_true, decide_eq_true_eq, beq_iff_eq, not_and] at hnone
    exact hnone hpos (by rw [hpred.2, hname])
  · refine ⟨m2, rfl, ?_⟩
    rw [googleParse_getD content j hj]
    exact googleBuild_payload content _ m2 hfind

/-- C3 counterexample: two starts of `A` followed by a single `OK A (5 ms)`
yield two records that both take `passed`/5 from the same completion
marker; the second is not reported as not-completed (`failed`/0). -/
theorem c3_counterexample :
    (googleTestParse c3ex).map (fun r => (r.name, r.status, r.duration_ms)) =
        [("A".data, Status.passed, 5), ("A".data, Status.passed, 5)] ∧
      ¬ ∃ r ∈ googleTestParse c3ex, r.status = Status.failed := by
  decide

theorem c3_witness :
    ∃ m2 : RMatch,
      googleFind c3ex ((googleRuns c3ex).getD 1 grDefault) = some m2 ∧
        ((googleTestParse c3ex).getD 1 tcDefault).status = m2.status ∧
        ((googleTestParse c3ex).getD 1 tcDefault).duration_ms = m2.duration_ms :=
  c3_completion_not_consumed c3ex 0 1 (by decide) (by decide) (by decide) c3wM
    (by decide) (by decide)

/-- C4 (confirmed): for the interleaved input `RUN A; RUN B; OK B (4 ms);
FAILED A (9 ms)` the parser emits exactly the records `A → failed/9` and
`B → passed/4`, in start-marker order, each completion attributed by name
equality. -/
theorem c4_interleaved_attribution :
    (googleTestParse c4ex).map (fun r => (r.name, r.status, r.duration_ms)) =
      [("A".data, Status.failed, 9), ("B".data, Status.passed, 4)] := by
  decide

theorem googleParse_err_take (content : List Char) (r : TestCase) (e : List Char)
    (hr : r ∈ googleTestParse content) (he : r.error_log = some e) :
    ∃ x : List Char, e = x.take 2048 := by
  simp only [googleTestParse, List.mem_map] at hr
  obtain ⟨rm, _, rfl⟩ := hr
  rcases googleBuild_err_shape content rm e he with ⟨x, y, rfl⟩ | ⟨x, y, rfl⟩
  · exact ⟨pyStrip (extract content x y), rfl⟩
  · exact ⟨joinNl ((googleFallbackLines content x y).take 20), rfl⟩

theorem goParse_err_shape (content : List Char) (res : List TestCase) (r : TestCase)
    (e : List Char) (hres : goTestParse content = some res) (hr : r ∈ res)
    (he : r.error_log = some e) :
    ∃ x y, e = (pyStrip (extract content x y)).take 2048 := by
  simp only [goTestParse] at hres
  split at hres
  · exact absurd hres (by simp)
  · obtain rfl := Option.some.inj hres
    have h2 := (goBuild_mem content _ _ r hr).2.2
    rw [h2] at he
    exact goErrLookup_shape content r.name e he

/-- C2 (corrected): the Concurrent-Style parser emits exactly one record per
start marker, with the `failed`/`0` fallback when no completion matches; the
Sequential-Style parser, however, emits a record only for a start name that
is present in the result map, silently dropping a start whose name has no
terminal marker. -/
theorem c2_start_marker_records :
    (∀ content : List Char,
        (googleTestParse content).length = (googleRuns content).length) ∧
      (∀ (content : List Char) (i : Nat), i < (googleRuns content).length →
        googleFind content ((googleRuns content).getD i grDefault) = none →
        ((googleTestParse content).getD i tcDefault).status = Status.failed ∧
        ((googleTestParse content).getD i tcDefault).duration_ms = 0) ∧
      (∀ (content : List Char) (res : List TestCase) (r : TestCase),
        goTestParse content = some res → r ∈ res →
        (goResLookup content r.name).isSome = true) := by
  refine ⟨?_, ?_, ?_⟩
  · intro content
    simp [googleTestParse]
  · intro content i h hm
    rw [googleParse_getD content i h]
    exact googleBuild_none content _ hm
  · intro content res r hres hr
    simp only [goTestParse] at hres
    split at hres
    · exact absurd hres (by simp)
    · obtain rfl := Option.some.inj hres
      exact (goBuild_mem content _ _ r hr).2.1

/-- C2 counterexample: `=== RUN   x` is a detected start marker (the name
list has length 1) with no terminal marker, yet `GoTestParser.parse` returns
an empty record list instead of a `failed`/`0` record. -/
theorem c2_counterexample :
    goTestParse c2ex = some [] ∧ (goRunNames c2ex).length = 1 := by
  decide

theorem c2_witness :
    (goResLookup c2wEx c2wTC.name).isSome = true :=
  c2_start_marker_records.2.2 c2wEx [c2wTC] c2wTC (by decide) (by decide)

/-- C5 (confirmed): for every input and every parser (including the
dispatcher), every emitted `error_log` has been truncated to at most 2048
characters. -/
theorem c5_errlog_bound (content : List Char) (r : TestCase) (e : List Char)
    (hmem : r ∈ googleTestParse content ∨ r ∈ pytestParse content ∨
      (∃ res, goTestParse content = some res ∧ r ∈ res) ∨
      (∃ res, genericParse content = some res ∧ r ∈ res))
    (herr : r.error_log = some e) : e.length ≤ 2048 := by
  have hgo : ∀ res2, goTestParse content = some res2 → r ∈ res2 → e.length ≤ 2048 := by
    intro res2 h1 h2
    obtain ⟨x, y, rfl⟩ := goParse_err_shape content res2 r e h1 h2 herr
    exact length_take_le _ _
  rcases hmem with hg | hp | ⟨res, hres, hr⟩ | ⟨res, hres, hr⟩
  · obtain ⟨x, rfl⟩ := googleParse_err_take content r e hg herr
    exact length_take_le _ _
  · obtain ⟨x, y, rfl⟩ := pytestParse_err_shape content r e hp herr
    exact length_take_le _ _
  · exact hgo res hres hr
  · simp only [genericParse] at hres
    split at hres
    · rcases hgres : goTestParse content with _ | t2 <;> rw [hgres] at hres <;>
        dsimp only at hres
      · exact absurd hres (by simp)
      · split at hres
        · split at hres
          · obtain rfl := Option.some.inj hres
            exact absurd hr (by simp)
          · obtain rfl := Option.some.inj hres
            obtain ⟨x, y, rfl⟩ := pytestParse_err_shape content r e hr herr
            exact length_take_le _ _
        · obtain rfl := Option.some.inj hres
          exact hgo _ hgres hr
    · obtain rfl := Option.some.inj hres
      obtain ⟨x, rfl⟩ := googleParse_err_take content r e hr herr
      exact length_take_le _ _

theorem c5_witness :
    c5wTC ∈ googleTestParse c5wEx ∧ ("oops".data).length ≤ 2048 :=
  ⟨by decide, c5_errlog_bound c5wEx c5wTC "oops".data (Or.inl (by decide)) (by decide)⟩

/-- C6 (confirmed): the dispatcher returns the Concurrent-Style result
exactly when it is non-empty, otherwise the Sequential-Style result when
non-empty, otherwise the Inline-Style result when non-empty, otherwise the
empty sequence; the `ValueError`/`OverflowError` which the Sequential-Style
parser may raise propagates (`none` on both sides). -/
theorem c6_dispatcher_priority (content : List Char) :
    genericParse content =
      if googleTestParse content ≠ [] then some (googleTestParse content)
      else
        match goTestParse content with
        | none => none
        | some r2 =>
          some (if r2 ≠ [] then r2
            else if pytestParse content ≠ [] then pytestParse content else []) := by
  simp only [genericParse]
  by_cases h1 : googleTestParse content = []
  · rw [if_neg (not_not_intro h1), if_pos (by simp [h1])]
    rcases goTestParse content with _ | t2
    · rfl
    · dsimp only
      by_cases h2 : t2 = []
      · rw [if_neg (not_not_intro h2), if_pos (by simp [h2])]
        by_cases h3 : pytestParse content = []
        · rw [if_neg (not_not_intro h3), if_pos (by simp [h3])]
        · rw [if_pos h3, if_neg (by simpa using h3)]
      · rw [if_pos h2, if_neg (by simpa using h2)]
  · rw [if_pos h1, if_neg (by simpa using h1)]

theorem seg_strip_extract_take (c : List Char) (x y : Nat) :
    isSeg ((pyStrip (extract c x y)).take 2048) c :=
  seg_trans (seg_take _ 2048) (seg_trans (seg_strip _) (seg_extract c x y))

/-- C7 (corrected): every emitted `error_log` of the Sequential-Style and
Inline-Style parsers is a contiguous (possibly truncated) substring of the
input text, and so is every `error_log` of the Concurrent-Style parser
except the ones built by its no-completion fallback without a
source-location line, which are newline-joins of individually stripped and
filtered window lines. -/
theorem c7_errlog_substring :
    (∀ (content : List Char) (res : List TestCase) (r : TestCase) (e : List Char),
        goTestParse content = some res → r ∈ res → r.error_log = some e →
        isSeg e content) ∧
      (∀ (content : List Char) (r : TestCase) (e : List Char),
        r ∈ pytestParse content → r.error_log = some e → isSeg e content) ∧
      (∀ (content : List Char) (r : TestCase) (e : List Char),
        r ∈ googleTestParse content → r.error_log = some e →
        isSeg e content ∨ ∃ a b, e = googleFallbackVal content a b) := by
  refine ⟨?_, ?_, ?_⟩
  · intro content res r e hres hr herr
    obtain ⟨x, y, rfl⟩ := goParse_err_shape content res r e hres hr herr
    exact seg_strip_extract_take content x y
  · intro content r e hr herr
    obtain ⟨x, y, rfl⟩ := pytestParse_err_shape content r e hr herr
    exact seg_strip_extract_take content x y
  · intro content r e hr herr
    simp only [googleTestParse, List.mem_map] at hr
    obtain ⟨rm, _, rfl⟩ := hr
    rcases googleBuild_err_shape content rm e herr with ⟨x, y, rfl⟩ | ⟨x, y, rfl⟩
    · exact Or.inl (seg_strip_extract_take content x y)
    · exact Or.inr ⟨x, y, rfl⟩

/-- C7 counterexample: in the no-completion fallback the `[DEBUG]` line of
the window is dropped and the remaining lines are re-joined, so the emitted
`error_log` `"x\ny"` is not a contiguous substring of the input. -/
theorem c7_counterexample :
    googleTestParse c7ex = [⟨"A".data, Status.failed, 0, some "x\ny".data⟩] ∧
      ¬ isSeg "x\ny".data c7ex := by
  refine ⟨by decide, ?_⟩
  rw [isSeg_iff_segB]
  decide

theorem c7_witness : isSeg "boom".data c7wEx :=
  c7_errlog_substring.1 c7wEx [c7wTC] c7wTC "boom".data (by decide) (by decide)
    (by decide)

/-- C8 counterexample: on the valid capture `1.9999999999999999` the code
computes `int(float(s) * 1000) = 2000` — the decimal rounds to the double
`2.0` — and the emitted record carries 2000, while the claim's conversion
rule, truncating multiplication by 1000, yields 1999. -/
theorem c8_counterexample :
    goTestParse c8cex = some [⟨"t".data, Status.passed, 2000, none⟩] ∧
      goDur? c8cap = some 2000 ∧ truncMul1000 c8cap = 1999 := by
  decide

/-- C8 (corrected): the Sequential-Style parser converts the captured
elapsed seconds by `int(float(s) * 1000)` in IEEE-754 double precision —
the capture is rounded to the nearest binary64 value, multiplied by 1000
with rounding, then truncated (`goDur?`) — which coincides with truncating
rational multiplication by 1000 (`truncMul1000`) on captures such as
`0.01`, though not on all captures; the concrete input `=== RUN   name` /
`--- PASS: name (0.01s)` yields exactly one record with `status = passed`
and `duration_ms = 10`. -/
theorem c8_sequential_duration :
    goTestParse c8ex = some [⟨"name".data, Status.passed, 10, none⟩] ∧
      goDur? "0.01".data = some 10 ∧
      goDurMs "0.01".data = truncMul1000 "0.01".data := by
  decide

/-- C9 (corrected): in the no-completion branch without a source-location
match, the `error_log` is produced by `googleFallbackOpt` on the window
between the end of the start marker and the next start marker (or end of
text): the stripped window is split into lines, each line is
whitespace-stripped, blank lines and lines starting with `[DEBUG]` or
`[INFO]` are dropped, only the first 20 remaining lines are kept, and the
newline-join is truncated to 2048 characters. -/
theorem c9_fallback_window (content : List Char) (i : Nat)
    (h : i < (googleRuns content).length)
    (hfind : googleFind content ((googleRuns content).getD i grDefault) = none)
    (hsearch : searchTestErr content ((googleRuns content).getD i grDefault).stop
        (googleNext content ((googleRuns content).getD i grDefault)) = none) :
    ((googleTestParse content).getD i tcDefault).error_log =
      googleFallbackOpt content ((googleRuns content).getD i grDefault).stop
        (googleNext content ((googleRuns content).getD i grDefault)) := by
  rw [googleParse_getD content i h]
  simp only [googleBuild, hfind, googleErrMissing, hsearch]

/-- C9 counterexample: a window of 21 diagnostic lines is cut to its first
20 lines, while the claim requires the full window (`c9full`, which is
exactly the code's own window between the markers) to be kept verbatim. -/
theorem c9_counterexample :
    (googleTestParse c9ex).map TestCase.error_log = [some c9twenty] ∧
      c9full = pyStrip (extract c9ex ((googleRuns c9ex).getD 0 grDefault).stop
        (googleNext c9ex ((googleRuns c9ex).getD 0 grDefault))) ∧
      c9twenty ≠ c9full := by
  decide

theorem c9_witness :
    ((googleTestParse c9wEx).getD 0 tcDefault).error_log =
      googleFallbackOpt c9wEx ((googleRuns c9wEx).getD 0 grDefault).stop
        (googleNext c9wEx ((googleRuns c9wEx).getD 0 grDefault)) :=
  c9_fallback_window c9wEx 0 (by decide) (by decide) (by decide)

/-- C10 (confirmed): records are emitted only for names captured by a start
marker — every record of the Concurrent-Style parser corresponds to a
`[ RUN ]` match with the same name, and every record of the
Sequential-Style parser carries a name from the `=== RUN` name list. -/
theorem c10_records_only_started (content : List Char) (r : TestCase) :
    (r ∈ googleTestParse content → ∃ g ∈ googleRuns content, g.name = r.name) ∧
      (∀ res, goTestParse content = some res → r ∈ res →
        r.name ∈ goRunNames content) := by
  constructor
  · intro hr
    simp only [googleTestParse, List.mem_map] at hr
    obtain ⟨rm, hmem, rfl⟩ := hr
    exact ⟨rm, hmem, (googleBuild_name content rm).symm⟩
  · intro res hres hr
    simp only [goTestParse] at hres
    split at hres
    · exact absurd hres (by simp)
    · obtain rfl := Option.some.inj hres
      exact (goBuild_mem content _ _ r hr).1

theorem c10_witness :
    ∃ g ∈ googleRuns c10wEx, g.name = c10wTC.name :=
  (c10_records_only_started c10wEx c10wTC).1 (by decide)

end ParseUpload
